import Mathlib

/-!
Verification of the postgres-backuper orchestration engine.

The Go source is shallowly embedded: containers become a record of id,
labels and names; the container-runtime and object-store clients become
oracle parameters (`Except`-valued results for each external call); log
statements and object puts become an explicit event list; a Go panic
(out-of-range string slice) becomes `Option.none`.  Byte payloads are
`List Nat`; strings are Lean `String` (container ids are ASCII, so Go's
byte slicing coincides with character slicing).
-/

/-- Snapshot of a discovered container: full identifier, label map
(unique keys, modelled as an association list) and assigned names. -/
structure Container where
  id : String
  labels : List (String × String)
  names : List String
deriving Repr, DecidableEq

/-- Go `container.Labels[key]` map lookup. -/
def lookupLabel (ls : List (String × String)) (k : String) : Option String :=
  (ls.find? (fun p => p.1 = k)).map (fun p => p.2)

/-- Splitting on the first occurrence of a separator character, keeping the
remainder whole: the `List Char` core of Go `strings.SplitN(s, "=", 2)`.
Returns a one-element list when the separator is absent, two otherwise. -/
def splitOnFirst (sep : Char) : List Char → List (List Char)
  | [] => [[]]
  | c :: rest =>
    if c = sep then [[], rest]
    else
      match splitOnFirst sep rest with
      | [] => [[c]]
      | x :: xs => (c :: x) :: xs

/-- Go `strings.SplitN(s, "=", 2)`. -/
def splitN2 (s : String) : List String :=
  (splitOnFirst '=' s.data).map (fun l => String.mk l)

/-- The environment-scanning loop shared by `getDatabaseName` and
`getDatabaseUser` (lines 74-82 and 94-102 of the source): walk the declared
environment entries; a malformed entry (no `=`) returns the default
immediately; a matching key returns its value; exhaustion returns the
default. -/
def lookupEnvLoop (key : String) : List String → String
  | [] => "postgres"
  | e :: rest =>
    match splitN2 e with
    | [k, v] => if k = key then v else lookupEnvLoop key rest
    | _ => "postgres"

/-- `getDatabaseName`: label override, else inspect the container's declared
environment for `POSTGRES_DB`, defaulting to `"postgres"`.  The
`ContainerInspect` call is the oracle argument `inspectEnv` (its `Config.Env`
on success). -/
def getDatabaseName (inspectEnv : Except String (List String)) (c : Container) : String :=
  match lookupLabel c.labels "postgres-backup/db-name" with
  | some v => v
  | none =>
    match inspectEnv with
    | .error _ => "postgres"
    | .ok env => lookupEnvLoop "POSTGRES_DB" env

/-- `getDatabaseUser`: label override, else `POSTGRES_USER` from the declared
environment, defaulting to `"postgres"`. -/
def getDatabaseUser (inspectEnv : Except String (List String)) (c : Container) : String :=
  match lookupLabel c.labels "postgres-backup/db-user" with
  | some v => v
  | none =>
    match inspectEnv with
    | .error _ => "postgres"
    | .ok env => lookupEnvLoop "POSTGRES_USER" env

/-- `getAppName`: label override, else first assigned name, else the first 12
characters of the container id.  Go's `container.ID[:12]` panics when the id
is shorter than 12 bytes; the panic is `none`. -/
def getAppName (c : Container) : Option String :=
  match lookupLabel c.labels "postgres-backup/app-name" with
  | some v => some v
  | none =>
    match c.names with
    | n :: _ => some n
    | [] => if 12 ≤ c.id.length then some (c.id.take 12) else none

/-! ## Tape-archive decoding (`UntarReaderToMem`)

The Go function consumes a `tar.Reader`; the wire format itself is the
standard library's concern, so the stream is embedded at the entry level:
a list of events, each either a successful `Next()` yielding a header plus
that entry's content-read outcome, or a structural `Next()` error.  The end
of the list is `io.EOF`.  (The `header == nil` arm of the source is
unreachable at this level: a successful `Next()` always carries a header.) -/

instance {ε α : Type} [DecidableEq ε] [DecidableEq α] : DecidableEq (Except ε α) := fun x y =>
  match x, y with
  | .ok a, .ok b =>
    if h : a = b then .isTrue (by rw [h]) else .isFalse (by simp [h])
  | .error a, .error b =>
    if h : a = b then .isTrue (by rw [h]) else .isFalse (by simp [h])
  | .ok _, .error _ => .isFalse (by simp)
  | .error _, .ok _ => .isFalse (by simp)

/-- Archive entry header: entry name and type flag. -/
structure TarHeader where
  name : String
  typeflag : Nat
deriving Repr, DecidableEq

/-- Go `tar.TypeReg` is the byte `'0'`. -/
def tarTypeReg : Nat := 48

/-- One step of the archive stream: a decoded entry (header plus the result
of reading its full contents) or a structural read error from `Next()`. -/
inductive TarEvent where
  | entry (h : TarHeader) (contents : Except String (List Nat))
  | fail (err : String)
deriving Repr, DecidableEq

abbrev TarStream := List TarEvent

/-- In-memory file map, Go `map[string][]byte`: association list with
overwrite-on-assign semantics. -/
abbrev FileMap := List (String × List Nat)

/-- Go map assignment `m[k] = v`: overwrite the existing binding or append. -/
def mapAssign (m : FileMap) (k : String) (v : List Nat) : FileMap :=
  if m.any (fun p => p.1 = k) then
    m.map (fun p => if p.1 = k then (k, v) else p)
  else m ++ [(k, v)]

/-- Go map read `m[k]` (with `none` for the missing-key zero value). -/
def mapRead (m : FileMap) (k : String) : Option (List Nat) :=
  (m.find? (fun p => p.1 = k)).map (fun p => p.2)

/-- Go `strings.TrimPrefix(name, "/")`: drop one leading slash if present. -/
def trimLeadingSlash (s : String) : String :=
  match s.data with
  | '/' :: rest => String.mk rest
  | _ => s

/-- The decode loop of `UntarReaderToMem` with its accumulated file map:
EOF returns the map, a `Next()` error aborts, a regular-file entry is read
fully (a content-read error aborts, wrapped) and stored under its trimmed
name, any other entry is skipped. -/
def untarLoop (fileMap : FileMap) : TarStream → Except String FileMap
  | [] => .ok fileMap
  | .fail e :: _ => .error e
  | .entry h contents :: rest =>
    if h.typeflag = tarTypeReg then
      match contents with
      | .error e => .error ("unable to extract tar file: " ++ e)
      | .ok bytes => untarLoop (mapAssign fileMap (trimLeadingSlash h.name) bytes) rest
    else untarLoop fileMap rest

/-- `UntarReaderToMem`: decode a tape-archive stream into a file map. -/
def UntarReaderToMem (s : TarStream) : Except String FileMap :=
  untarLoop [] s

/-- Modelled from the spec: the archive writer used by the round-trip
property is the standard tape-archive encoder, external to this repository.
At the entry level it emits one regular-file entry per file, in order, whose
contents read back successfully. -/
def tarEncode (files : FileMap) : TarStream :=
  files.map (fun p => .entry ⟨p.1, tarTypeReg⟩ (.ok p.2))

/-! ## Dump extraction (`DumpData` / `waitForExecToEnd`) -/

/-- Outcome of the select between the poller's done channel and the 30 s
timer. -/
inductive WaitOutcome where
  | finished
  | timedOut
deriving Repr, DecidableEq

/-- Poll interval of the wait loop, milliseconds (`250 * time.Millisecond`). -/
def pollIntervalMs : Nat := 250

/-- Hard timeout of the wait, milliseconds (`30 * time.Second`). -/
def waitTimeoutMs : Nat := 30000

/-- Number of polls the background task completes before the timer fires:
polls happen at 0 ms, 250 ms, …, so 120 of them precede the 30 s mark. -/
def maxPolls : Nat := waitTimeoutMs / pollIntervalMs

/-- The background polling task raced against the timer.  `poll k` is the
`ContainerExecInspect` outcome of the k-th poll, as the running flag or an
inspection error.  An inspection error signals the done channel exactly like
a not-running state (the source sends `true` on both paths); exhausting the
fuel means the timer won the select. -/
def waitLoop (poll : Nat → Except String Bool) : Nat → Nat → WaitOutcome
  | 0, _ => .timedOut
  | fuel + 1, k =>
    match poll k with
    | .error _ => .finished
    | .ok running => if running then waitLoop poll fuel (k + 1) else .finished

/-- Result of `waitForExecToEnd`: which select arm fired, and what was
logged.  The source returns nothing either way — a timeout is logged, never
surfaced as an error. -/
structure WaitResult where
  outcome : WaitOutcome
  logs : List String
deriving Repr, DecidableEq

/-- `waitForExecToEnd`: race the polling task against the 30 s timer; log on
timeout, return silently on completion. -/
def waitForExecToEnd (poll : Nat → Except String Bool) (execId : String) : WaitResult :=
  match waitLoop poll maxPolls 0 with
  | .timedOut => ⟨.timedOut, ["Timed out waiting for exec " ++ execId]⟩
  | .finished => ⟨.finished, []⟩

/-- Oracle for one container's exec-related runtime calls:
`ContainerExecCreate` (yields the exec id), `ContainerExecStart`, the
per-poll `ContainerExecInspect` outcomes, and `CopyFromContainer` (yields
the archive stream of `/tmp/dump.sql`). -/
structure ExecEnv where
  createResult : Except String String
  startResult : Except String Unit
  poll : Nat → Except String Bool
  copyResult : Except String TarStream

/-- Result of `DumpData`: the shell command it assembled, the returned
archive stream or error, and the logs emitted while waiting. -/
structure DumpResult where
  cmd : String
  stream : Except String TarStream
  logs : List String

/-- `DumpData`: create the exec invocation running `pg_dump` into
`/tmp/dump.sql`, start it, wait (bounded) for it to end, then copy the dump
path out of the container as an archive stream.  Create, start and copy
errors are returned; the wait never produces an error. -/
def DumpData (e : ExecEnv) (dbName user : String) : DumpResult :=
  let cmd := "pg_dump -U " ++ user ++ " " ++ dbName ++ " > /tmp/dump.sql"
  match e.createResult with
  | .error err => ⟨cmd, .error err, []⟩
  | .ok execId =>
    match e.startResult with
    | .error err => ⟨cmd, .error err, []⟩
    | .ok _ =>
      let w := waitForExecToEnd e.poll execId
      match e.copyResult with
      | .error err => ⟨cmd, .error err, w.logs⟩
      | .ok stream => ⟨cmd, .ok stream, w.logs⟩

/-! ## Upload (`UploadDump`) and the orchestrator (`BackupContainer` / `Scan`) -/

/-- The object-store write issued by `PutObject`: bucket, key, payload. -/
structure PutRecord where
  bucket : String
  key : String
  payload : List Nat
deriving Repr, DecidableEq

/-- Result of `UploadDump`: the put that was issued and the logs. -/
structure UploadResult where
  put : PutRecord
  logs : List String
deriving Repr, DecidableEq

/-- The object key `fmt.Sprintf("%s/%s.sql", appName, now)`, where `now` is
the RFC3339 rendering of the upload time. -/
def objectKey (appName ts : String) : String :=
  appName ++ "/" ++ ts ++ ".sql"

/-- `UploadDump`: decode the archive stream, then put `mem["dump.sql"]`
under the object key.  The decode error is assigned and immediately
shadowed by the `PutObject` call without ever being checked; on a decode
error `mem` is the nil map, so the payload read back is the nil slice — an
empty payload is uploaded under the normal key.  `ts` is the RFC3339
rendering of `time.Now()`; `putResult` is the `PutObject` outcome (its
location on success). -/
def UploadDump (bucket appName ts : String) (stream : TarStream)
    (putResult : Except String String) : UploadResult :=
  let mem : FileMap :=
    match UntarReaderToMem stream with
    | .error _ => []
    | .ok m => m
  let payload := (mapRead mem "dump.sql").getD []
  let failLogs :=
    match putResult with
    | .error err => ["Failed to upload backup file for " ++ appName ++ " : " ++ err]
    | .ok _ => []
  let location := match putResult with | .ok loc => loc | .error _ => ""
  ⟨⟨bucket, objectKey appName ts, payload⟩,
    failLogs ++ ["Uploaded backup file " ++ location]⟩

/-- Observable actions of a scan: a log line or an object-store put. -/
inductive Event where
  | log (msg : String)
  | put (r : PutRecord)
deriving Repr, DecidableEq

/-- Oracle for all external calls made while backing up one container. -/
structure ContainerEnv where
  inspectEnv : Except String (List String)
  exec : ExecEnv
  putResult : Except String String

/-- `BackupContainer`: log start (slicing `container.ID[:12]` — a panic,
`none`, when the id is shorter than 12 characters), resolve names, dump;
on dump failure log and return, otherwise upload and log completion. -/
def BackupContainer (bucket ts : String) (env : ContainerEnv) (c : Container) :
    Option (List Event) :=
  if 12 ≤ c.id.length then
    let short := c.id.take 12
    match getAppName c with
    | none => none
    | some appName =>
      let dbName := getDatabaseName env.inspectEnv c
      let user := getDatabaseUser env.inspectEnv c
      let d := DumpData env.exec dbName user
      match d.stream with
      | .error _ =>
        some (Event.log ("Starting backup for container " ++ short) ::
          d.logs.map Event.log ++
          [Event.log ("Failed to dump data for " ++ short)])
      | .ok stream =>
        let u := UploadDump bucket appName ts stream env.putResult
        some (Event.log ("Starting backup for container " ++ short) ::
          d.logs.map Event.log ++
          Event.put u.put :: u.logs.map Event.log ++
          [Event.log ("Finished backup for container " ++ short)])
  else none

/-- The per-container loop of `Scan`: each discovered container is backed
up in order; the loop body never returns an error, so only a panic (`none`)
can interrupt it. -/
def scanLoop (bucket ts : String) (envOf : String → ContainerEnv) :
    List Container → Option (List Event)
  | [] => some []
  | c :: rest =>
    match BackupContainer bucket ts (envOf c.id) c with
    | none => none
    | some evs =>
      match scanLoop bucket ts envOf rest with
      | none => none
      | some evs2 => some (evs ++ evs2)

/-- `Scan`: log start, list containers carrying `postgres-backup=true`
(the `listing` oracle); a listing error is logged and leaves the result
slice nil, so the loop body runs zero times; then back up each container
and log the end of the scan. -/
def Scan (bucket ts : String) (envOf : String → ContainerEnv)
    (listing : Except String (List Container)) : Option (List Event) :=
  let result := match listing with | .error _ => [] | .ok cs => cs
  let failLogs :=
    match listing with
    | .error e => [Event.log ("Failed to list containers: " ++ e)]
    | .ok _ => []
  match scanLoop bucket ts envOf result with
  | none => none
  | some evs =>
    some (Event.log "Start containers scan" :: failLogs ++ evs ++
      [Event.log "End containers scan"])

/-! ## Spec-side definitions, for comparison with the embedded code -/

/-- The spec's view of environment lookup: the value of the first declared
entry whose key is `key`. -/
def declaredEnvValue (key : String) : List String → Option String
  | [] => none
  | e :: rest =>
    match splitN2 e with
    | [k, v] => if k = key then some v else declaredEnvValue key rest
    | _ => declaredEnvValue key rest

/-- The spec's view of archive decoding on a structurally clean stream:
fold over the entries, storing each regular file's contents under its name
with a leading slash stripped, skipping every other entry. -/
def decodeFold (m : FileMap) : TarStream → FileMap
  | [] => m
  | .entry h (.ok bytes) :: rest =>
    if h.typeflag = tarTypeReg then
      decodeFold (mapAssign m (trimLeadingSlash h.name) bytes) rest
    else decodeFold m rest
  | _ :: rest => decodeFold m rest

/-! ## Concrete instances used by examples and witnesses -/

def exStream : TarStream := [.entry ⟨"dump.sql", tarTypeReg⟩ (.ok [1, 2, 3])]

def exC1 : Container := ⟨"aaaaaaaaaaaa0001", [], []⟩

def exC2 : Container := ⟨"bbbbbbbbbbbb0002", [], []⟩

def exC3 : Container := ⟨"cccccccccccc0003", [], []⟩

/-- Environment in which every runtime call succeeds and the exec finishes
on the first poll. -/
def exGoodEnv : ContainerEnv :=
  ⟨.ok ["POSTGRES_DB=app"], ⟨.ok "exec1", .ok (), fun _ => .ok false, .ok exStream⟩, .ok "loc"⟩

/-- Environment in which creating the exec invocation (dump extraction)
fails. -/
def exFailEnv : ContainerEnv :=
  ⟨.ok [], ⟨.error "exec create failed", .ok (), fun _ => .ok false, .ok exStream⟩, .ok "loc"⟩

/-- Per-container oracle for the three-container scenario of the
partial-failure property: the second container's dump extraction fails. -/
def exEnvOf (cid : String) : ContainerEnv :=
  if cid = exC2.id then exFailEnv else exGoodEnv

/-- Environment in which every runtime call succeeds but the archive stream
copied out of the container is structurally corrupt, so decoding fails. -/
def exBadArchiveEnv : ContainerEnv :=
  ⟨.ok [], ⟨.ok "exec1", .ok (), fun _ => .ok false, .ok [.fail "corrupt archive"]⟩,
    .ok "loc"⟩

/-- Whether the event is an object-store put under the key `k`. -/
def isPutWithKey (k : String) : Event → Bool
  | .put r => r.key = k
  | .log _ => false

/-- Exec oracle whose in-container command never reports finished. -/
def exTimeoutExec : ExecEnv :=
  ⟨.ok "exec1", .ok (), fun _ => .ok true, .ok []⟩

/-- Exec oracle whose state poll always fails with an inspection error. -/
def exErrPollExec : ExecEnv :=
  ⟨.ok "exec1", .ok (), fun _ => .error "inspect failed", .ok []⟩

/-! ## Helper lemmas -/

theorem getAppName_isSome (c : Container) (h : 12 ≤ c.id.length) :
    ∃ a, getAppName c = some a := by
  unfold getAppName
  cases hl : lookupLabel c.labels "postgres-backup/app-name" with
  | some v => exact ⟨v, rfl⟩
  | none =>
    cases hn : c.names with
    | cons n rest => exact ⟨n, rfl⟩
    | nil => exact ⟨c.id.take 12, by simp [h]⟩

theorem lookupEnvLoop_cons_malformed (key e : String) (rest : List String)
    (h : (splitN2 e).length ≠ 2) :
    lookupEnvLoop key (e :: rest) = "postgres" := by
  unfold lookupEnvLoop
  split
  · rename_i k v hkv
    rw [hkv] at h
    simp at h
  · rfl

theorem lookupEnvLoop_cons_wf (key e : String) (rest : List String) (k v : String)
    (hkv : splitN2 e = [k, v]) :
    lookupEnvLoop key (e :: rest) = if k = key then v else lookupEnvLoop key rest := by
  simp only [lookupEnvLoop, hkv]

theorem lookupEnvLoop_wf (key : String) (env : List String)
    (h : ∀ e ∈ env, (splitN2 e).length = 2) :
    lookupEnvLoop key env = (declaredEnvValue key env).getD "postgres" := by
  induction env with
  | nil => rfl
  | cons e rest ih =>
    have he := h e (List.mem_cons_self _ _)
    have ih2 := ih (fun x hx => h x (List.mem_cons_of_mem _ hx))
    obtain ⟨k, v, hkv⟩ : ∃ k v, splitN2 e = [k, v] := by
      cases hs : splitN2 e with
      | nil => rw [hs] at he; simp at he
      | cons a tl =>
        cases tl with
        | nil => rw [hs] at he; simp at he
        | cons b tl2 =>
          cases tl2 with
          | nil => exact ⟨a, b, rfl⟩
          | cons c2 tl3 => rw [hs] at he; simp at he
    rw [lookupEnvLoop_cons_wf key e rest k v hkv]
    simp only [declaredEnvValue, hkv]
    by_cases hk : k = key
    · simp [hk]
    · simp [hk, ih2]

theorem lookupEnvLoop_malformed (key bad : String) (pre rest : List String)
    (hbad : (splitN2 bad).length ≠ 2)
    (hpre : ∀ e ∈ pre, ∃ k v, splitN2 e = [k, v] ∧ k ≠ key) :
    lookupEnvLoop key (pre ++ bad :: rest) = "postgres" := by
  induction pre with
  | nil => exact lookupEnvLoop_cons_malformed key bad rest hbad
  | cons e pr ih =>
    obtain ⟨k, v, hkv, hk⟩ := hpre e (List.mem_cons_self _ _)
    rw [List.cons_append, lookupEnvLoop_cons_wf key e _ k v hkv, if_neg hk]
    exact ih (fun x hx => hpre x (List.mem_cons_of_mem _ hx))

theorem backupContainer_some (bucket ts : String) (env : ContainerEnv) (c : Container)
    (h : 12 ≤ c.id.length) :
    ∃ evs, BackupContainer bucket ts env c = some evs ∧
      Event.log ("Starting backup for container " ++ c.id.take 12) ∈ evs := by
  obtain ⟨a, ha⟩ := getAppName_isSome c h
  unfold BackupContainer
  rw [if_pos h, ha]
  dsimp only
  split
  · exact ⟨_, rfl, List.mem_cons_self _ _⟩
  · exact ⟨_, rfl, List.mem_cons_self _ _⟩

theorem untarLoop_ok (s : TarStream) :
    ∀ m, (∀ ev ∈ s, ∃ hd bs, ev = TarEvent.entry hd (.ok bs)) →
      untarLoop m s = .ok (decodeFold m s) := by
  induction s with
  | nil => intro m h; rfl
  | cons ev rest ih =>
    intro m h
    obtain ⟨hd, bs, hev⟩ := h ev (List.mem_cons_self _ _)
    subst hev
    have h2 : ∀ x ∈ rest, ∃ hd2 bs2, x = TarEvent.entry hd2 (.ok bs2) :=
      fun x hx => h x (List.mem_cons_of_mem _ hx)
    by_cases ht : hd.typeflag = tarTypeReg
    · simp only [untarLoop, decodeFold, ht, if_true, ite_true, if_pos]
      exact ih _ h2
    · simp only [untarLoop, decodeFold, if_neg ht]
      exact ih _ h2

theorem waitLoop_running (poll : Nat → Except String Bool)
    (h : ∀ k, poll k = .ok true) :
    ∀ fuel k, waitLoop poll fuel k = .timedOut := by
  intro fuel
  induction fuel with
  | zero => intro k; rfl
  | succ n ih =>
    intro k
    simp only [waitLoop, h k, ite_true, if_pos]
    exact ih (k + 1)

theorem scanLoop_all_attempted (bucket ts : String) (envOf : String → ContainerEnv)
    (cs : List Container) (h : ∀ c ∈ cs, 12 ≤ c.id.length) :
    ∃ evs, scanLoop bucket ts envOf cs = some evs ∧
      ∀ c ∈ cs, Event.log ("Starting backup for container " ++ c.id.take 12) ∈ evs := by
  induction cs with
  | nil => exact ⟨[], rfl, by simp⟩
  | cons c rest ih =>
    obtain ⟨evs1, h1, hm1⟩ := backupContainer_some bucket ts (envOf c.id) c
      (h c (List.mem_cons_self _ _))
    obtain ⟨evs2, h2, hm2⟩ := ih (fun x hx => h x (List.mem_cons_of_mem _ hx))
    refine ⟨evs1 ++ evs2, ?_, ?_⟩
    · simp only [scanLoop, h1, h2]
    · intro x hx
      rcases List.mem_cons.mp hx with hx | hx
      · subst hx; exact List.mem_append_left _ hm1
      · exact List.mem_append_right _ (hm2 x hx)

example : splitN2 "POSTGRES_DB=shop" = ["POSTGRES_DB", "shop"] := by decide
example : splitN2 "NOEQUALS" = ["NOEQUALS"] := by decide
example : splitN2 "" = [""] := by decide
example : splitN2 "A=b=c" = ["A", "b=c"] := by decide
example : getDatabaseName (.ok ["FOO=bar", "POSTGRES_DB=shop"]) ⟨"x", [], []⟩ = "shop" := by
  decide
example : getDatabaseName (.ok ["BAD", "POSTGRES_DB=shop"]) ⟨"x", [], []⟩ = "postgres" := by
  decide
example : getAppName ⟨"abcdef0123456789", [], []⟩ = some "abcdef012345" := by decide
example : getAppName ⟨"ab", [], []⟩ = none := by decide

/-! ## Claim theorems -/

/-- C4 counterexample: application-name resolution is not total.  For the
container with identifier "ab" (shorter than 12 characters), no names and
no override label, `container.ID[:12]` panics, so resolution returns no
value at all. -/
theorem getAppName_short_id_counterexample :
    getAppName ⟨"ab", [], []⟩ = none ∧ ¬ ∃ a, getAppName ⟨"ab", [], []⟩ = some a := by
  have h : getAppName ⟨"ab", [], []⟩ = none := by decide
  exact ⟨h, by rintro ⟨a, ha⟩; rw [h] at ha; exact Option.noConfusion ha⟩

/-- C4 (amended): application-name resolution follows the priority override
label → first assigned name → first 12 characters of the identifier, and is
total provided that, when both earlier alternatives are absent, the
identifier has at least 12 characters; with no label, no names and an
identifier shorter than 12 characters it panics instead of returning.  For
id `abcdef0123456789`, no names, no override label, the result is
`abcdef012345`. -/
theorem getAppName_priority_amended (c : Container) :
    (∀ v, lookupLabel c.labels "postgres-backup/app-name" = some v →
      getAppName c = some v) ∧
    (lookupLabel c.labels "postgres-backup/app-name" = none →
      ∀ n rest, c.names = n :: rest → getAppName c = some n) ∧
    (lookupLabel c.labels "postgres-backup/app-name" = none → c.names = [] →
      12 ≤ c.id.length → getAppName c = some (c.id.take 12)) ∧
    (lookupLabel c.labels "postgres-backup/app-name" = none → c.names = [] →
      c.id.length < 12 → getAppName c = none) ∧
    getAppName ⟨"abcdef0123456789", [], []⟩ = some "abcdef012345" := by
  refine ⟨?_, ?_, ?_, ?_, by decide⟩
  · intro v hv; simp [getAppName, hv]
  · intro hl n rest hn; simp [getAppName, hl, hn]
  · intro hl hn hlen; simp [getAppName, hl, hn, hlen]
  · intro hl hn hlen
    have hno : ¬ 12 ≤ c.id.length := by omega
    simp [getAppName, hl, hn, hno]

theorem getAppName_priority_amended_witness :
    getAppName ⟨"abcdef0123456789", [], []⟩ = some "abcdef012345" ∧
    getAppName ⟨"ab", [], []⟩ = none :=
  ⟨(getAppName_priority_amended ⟨"abcdef0123456789", [], []⟩).2.2.1 rfl rfl (by decide),
   (getAppName_priority_amended ⟨"ab", [], []⟩).2.2.2.1 rfl rfl (by decide)⟩

/-- C5: for every application name and every upload time, the object key
written by the uploader is the application name, then `/`, then the RFC3339
rendering of the timestamp, then `.sql`; for `"shop"` at
2023-01-01T00:00:00Z the key is `shop/2023-01-01T00:00:00Z.sql`. -/
theorem uploadDump_object_key (bucket appName ts : String) (stream : TarStream)
    (putResult : Except String String) :
    (UploadDump bucket appName ts stream putResult).put.key =
      appName ++ "/" ++ ts ++ ".sql" ∧
    (UploadDump "backups" "shop" "2023-01-01T00:00:00Z" exStream (.ok "loc")).put.key =
      "shop/2023-01-01T00:00:00Z.sql" :=
  ⟨rfl, by decide⟩

/-- C7: when the container-runtime listing call fails, the failure is
logged, the result slice is nil so zero containers are backed up (no
further log or put event), and the scan still ends normally with its
closing log — the cycle is lost but the process survives to run later
cycles. -/
theorem scan_listing_failure (bucket ts : String) (envOf : String → ContainerEnv)
    (e : String) :
    Scan bucket ts envOf (.error e) =
      some [Event.log "Start containers scan",
        Event.log ("Failed to list containers: " ++ e),
        Event.log "End containers scan"] := rfl

/-- C10: per-container backup and the application-name fallback slice the
first 12 characters of the container identifier, so both are total only
when the identifier has at least 12 characters: a shorter identifier makes
`BackupContainer` panic unconditionally (its very first log slices the id)
and makes `getAppName` panic when neither the override label nor a name is
available, while identifiers of length at least 12 always yield a result. -/
theorem backup_short_id_panics (c : Container) (bucket ts : String) (env : ContainerEnv) :
    (c.id.length < 12 → BackupContainer bucket ts env c = none) ∧
    (c.id.length < 12 → lookupLabel c.labels "postgres-backup/app-name" = none →
      c.names = [] → getAppName c = none) ∧
    (12 ≤ c.id.length → (BackupContainer bucket ts env c).isSome) := by
  refine ⟨?_, ?_, ?_⟩
  · intro h
    unfold BackupContainer
    rw [if_neg (by omega)]
  · intro h hl hn
    have hno : ¬ 12 ≤ c.id.length := by omega
    simp [getAppName, hl, hn, hno]
  · intro h
    obtain ⟨evs, hevs, _⟩ := backupContainer_some bucket ts env c h
    rw [hevs]
    rfl

/-- C2: database-name and database-user resolution return the override
label value when present; otherwise, with a well-formed declared
environment, the value of the first `POSTGRES_DB` / `POSTGRES_USER` entry
when declared and the default `"postgres"` otherwise; a container-inspect
failure yields the default, and a malformed environment entry (one with no
`=`) reached before any matching entry terminates the scan with the
default — resolution is a total function and never crashes. -/
theorem databaseResolution_priority (c : Container) (env : List String) :
    (∀ v, lookupLabel c.labels "postgres-backup/db-name" = some v →
      ∀ ins, getDatabaseName ins c = v) ∧
    (∀ v, lookupLabel c.labels "postgres-backup/db-user" = some v →
      ∀ ins, getDatabaseUser ins c = v) ∧
    (lookupLabel c.labels "postgres-backup/db-name" = none →
      ∀ e, getDatabaseName (.error e) c = "postgres") ∧
    (lookupLabel c.labels "postgres-backup/db-user" = none →
      ∀ e, getDatabaseUser (.error e) c = "postgres") ∧
    (lookupLabel c.labels "postgres-backup/db-name" = none →
      (∀ e ∈ env, (splitN2 e).length = 2) →
      getDatabaseName (.ok env) c =
        (declaredEnvValue "POSTGRES_DB" env).getD "postgres") ∧
    (lookupLabel c.labels "postgres-backup/db-user" = none →
      (∀ e ∈ env, (splitN2 e).length = 2) →
      getDatabaseUser (.ok env) c =
        (declaredEnvValue "POSTGRES_USER" env).getD "postgres") ∧
    (lookupLabel c.labels "postgres-backup/db-name" = none →
      ∀ pre bad rest, env = pre ++ bad :: rest → (splitN2 bad).length ≠ 2 →
      (∀ e ∈ pre, ∃ k v, splitN2 e = [k, v] ∧ k ≠ "POSTGRES_DB") →
      getDatabaseName (.ok env) c = "postgres") ∧
    (lookupLabel c.labels "postgres-backup/db-user" = none →
      ∀ pre bad rest, env = pre ++ bad :: rest → (splitN2 bad).length ≠ 2 →
      (∀ e ∈ pre, ∃ k v, splitN2 e = [k, v] ∧ k ≠ "POSTGRES_USER") →
      getDatabaseUser (.ok env) c = "postgres") := by
  refine ⟨?_, ?_, ?_, ?_, ?_, ?_, ?_, ?_⟩
  · intro v hv ins; simp [getDatabaseName, hv]
  · intro v hv ins; simp [getDatabaseUser, hv]
  · intro hl e; simp [getDatabaseName, hl]
  · intro hl e; simp [getDatabaseUser, hl]
  · intro hl hwf; simp [getDatabaseName, hl, lookupEnvLoop_wf _ _ hwf]
  · intro hl hwf; simp [getDatabaseUser, hl, lookupEnvLoop_wf _ _ hwf]
  · intro hl pre bad rest henv hbad hpre
    subst henv
    simp [getDatabaseName, hl, lookupEnvLoop_malformed _ _ _ _ hbad hpre]
  · intro hl pre bad rest henv hbad hpre
    subst henv
    simp [getDatabaseUser, hl, lookupEnvLoop_malformed _ _ _ _ hbad hpre]

theorem databaseResolution_priority_witness :
    getDatabaseName (.ok ["FOO=1", "POSTGRES_DB=shop"]) ⟨"cid", [], []⟩ = "shop" ∧
    getDatabaseUser (.ok ["BAD", "POSTGRES_USER=admin"]) ⟨"cid", [], []⟩ = "postgres" ∧
    getDatabaseName (.error "no such container") ⟨"cid", [], []⟩ = "postgres" ∧
    getDatabaseName (.ok []) ⟨"cid", [("postgres-backup/db-name", "mydb")], []⟩ = "mydb" := by
  refine ⟨?_, ?_, ?_, ?_⟩
  · exact ((databaseResolution_priority ⟨"cid", [], []⟩
      ["FOO=1", "POSTGRES_DB=shop"]).2.2.2.2.1 rfl (by decide)).trans (by decide)
  · exact (databaseResolution_priority ⟨"cid", [], []⟩
      ["BAD", "POSTGRES_USER=admin"]).2.2.2.2.2.2.2 rfl [] "BAD" ["POSTGRES_USER=admin"]
      rfl (by decide) (by simp)
  · exact (databaseResolution_priority ⟨"cid", [], []⟩ []).2.2.1 rfl "no such container"
  · exact (databaseResolution_priority ⟨"cid", [("postgres-backup/db-name", "mydb")], []⟩
      []).1 "mydb" rfl (.ok [])

theorem backup_short_id_panics_witness :
    BackupContainer "backups" "2023-01-01T00:00:00Z" exGoodEnv ⟨"ab", [], []⟩ = none ∧
    (BackupContainer "backups" "2023-01-01T00:00:00Z" exGoodEnv exC1).isSome :=
  ⟨(backup_short_id_panics ⟨"ab", [], []⟩ "backups" "2023-01-01T00:00:00Z" exGoodEnv).1
      (by decide),
   (backup_short_id_panics exC1 "backups" "2023-01-01T00:00:00Z" exGoodEnv).2.2 (by decide)⟩

/-- C3: the archive decoder is a left inverse of tape-archive encoding for
regular files — decoding the encoding of `{"dump.sql": b}` yields exactly
`{"dump.sql": b}` — and on every structurally clean stream it maps each
regular-file entry's name (leading `/` stripped) to its full contents,
skips non-regular entries without error, and returns the map at
end-of-stream; the last conjunct exhibits the slash stripping and the
skipping of a directory entry (type flag `'5'` = 53) concretely. -/
theorem untar_roundtrip (b : List Nat) (s : TarStream)
    (h : ∀ ev ∈ s, ∃ hd bs, ev = TarEvent.entry hd (.ok bs)) :
    UntarReaderToMem (tarEncode [("dump.sql", b)]) = .ok [("dump.sql", b)] ∧
    UntarReaderToMem s = .ok (decodeFold [] s) ∧
    UntarReaderToMem [.entry ⟨"/dump.sql", tarTypeReg⟩ (.ok b),
      .entry ⟨"subdir", 53⟩ (.ok [])] = .ok [("dump.sql", b)] :=
  ⟨rfl, untarLoop_ok s [] h, rfl⟩

theorem untar_roundtrip_witness :
    UntarReaderToMem (tarEncode [("dump.sql", [7, 8])]) = .ok [("dump.sql", [7, 8])] :=
  (untar_roundtrip [7, 8] [] (by simp)).1

/-- C6: when the in-container command never reports finished, the wait is
bounded by the hard timeout — the timer arm of the select fires after the
poller has run at most `maxPolls = 30 s / 250 ms = 120` times — the timeout
is logged but not returned as an error, and the extractor proceeds to the
copy step and returns the archive stream. -/
theorem dumpData_wait_timeout (e : ExecEnv) (dbName user execId : String) (s : TarStream)
    (hpoll : ∀ k, e.poll k = .ok true)
    (hcreate : e.createResult = .ok execId)
    (hstart : e.startResult = .ok ())
    (hcopy : e.copyResult = .ok s) :
    waitForExecToEnd e.poll execId =
      ⟨.timedOut, ["Timed out waiting for exec " ++ execId]⟩ ∧
    DumpData e dbName user =
      ⟨"pg_dump -U " ++ user ++ " " ++ dbName ++ " > /tmp/dump.sql", .ok s,
        ["Timed out waiting for exec " ++ execId]⟩ ∧
    maxPolls = 120 := by
  have hw : waitForExecToEnd e.poll execId =
      ⟨.timedOut, ["Timed out waiting for exec " ++ execId]⟩ := by
    unfold waitForExecToEnd
    rw [waitLoop_running e.poll hpoll maxPolls 0]
  refine ⟨hw, ?_, rfl⟩
  simp only [DumpData, hcreate, hstart, hcopy, hw]

theorem dumpData_wait_timeout_witness :
    DumpData exTimeoutExec "app" "postgres" =
      ⟨"pg_dump -U " ++ "postgres" ++ " " ++ "app" ++ " > /tmp/dump.sql", .ok [],
        ["Timed out waiting for exec " ++ "exec1"]⟩ :=
  (dumpData_wait_timeout exTimeoutExec "app" "postgres" "exec1" []
    (fun _ => rfl) rfl rfl rfl).2.1

/-- C8: a poll that returns an inspection error signals the done channel
exactly as a finished command does — the select reports completion with no
timeout log, the error is never surfaced to the caller, and the extractor
proceeds immediately to the copy step, conflating the poll-error path with
the finished path. -/
theorem wait_poll_error_conflated (e : ExecEnv) (dbName user execId err : String)
    (s : TarStream)
    (hpoll : e.poll 0 = .error err)
    (hcreate : e.createResult = .ok execId)
    (hstart : e.startResult = .ok ())
    (hcopy : e.copyResult = .ok s) :
    waitForExecToEnd e.poll execId = ⟨.finished, []⟩ ∧
    DumpData e dbName user =
      ⟨"pg_dump -U " ++ user ++ " " ++ dbName ++ " > /tmp/dump.sql", .ok s, []⟩ := by
  have hw : waitForExecToEnd e.poll execId = ⟨.finished, []⟩ := by
    unfold waitForExecToEnd
    have hl : waitLoop e.poll maxPolls 0 = .finished := by
      have hm : maxPolls = 119 + 1 := rfl
      rw [hm]
      simp only [waitLoop, hpoll]
    rw [hl]
  refine ⟨hw, ?_⟩
  simp only [DumpData, hcreate, hstart, hcopy, hw]

theorem wait_poll_error_conflated_witness :
    waitForExecToEnd exErrPollExec.poll "exec1" = ⟨.finished, []⟩ ∧
    DumpData exErrPollExec "app" "postgres" =
      ⟨"pg_dump -U " ++ "postgres" ++ " " ++ "app" ++ " > /tmp/dump.sql", .ok [], []⟩ :=
  wait_poll_error_conflated exErrPollExec "app" "postgres" "exec1" "inspect failed" []
    rfl rfl rfl rfl

/-- C9: when archive decoding fails, or the decoded map has no entry named
`dump.sql`, the uploader still issues a put of an empty byte payload under
the normal object key — the decode error is assigned and immediately
shadowed, never checked — and its log output is exactly what it would be
for any other stream, so the condition is never reported. -/
theorem uploadDump_ignores_decode_failure (bucket appName ts : String)
    (stream : TarStream) (putResult : Except String String)
    (h : (∃ e, UntarReaderToMem stream = .error e) ∨
      (∀ m, UntarReaderToMem stream = .ok m → mapRead m "dump.sql" = none)) :
    (UploadDump bucket appName ts stream putResult).put =
      ⟨bucket, objectKey appName ts, []⟩ ∧
    ∀ s2, (UploadDump bucket appName ts stream putResult).logs =
      (UploadDump bucket appName ts s2 putResult).logs := by
  constructor
  · rcases h with ⟨e, he⟩ | hnone
    · simp [UploadDump, he, mapRead]
    · cases hu : UntarReaderToMem stream with
      | error e => simp [UploadDump, hu, mapRead]
      | ok m => simp [UploadDump, hu, hnone m hu]
  · intro s2
    rfl

theorem uploadDump_ignores_decode_failure_witness :
    (UploadDump "backups" "shop" "2023-01-01T00:00:00Z"
        [.fail "broken archive"] (.ok "loc")).put =
      ⟨"backups", objectKey "shop" "2023-01-01T00:00:00Z", []⟩ ∧
    ∀ s2, (UploadDump "backups" "shop" "2023-01-01T00:00:00Z"
        [.fail "broken archive"] (.ok "loc")).logs =
      (UploadDump "backups" "shop" "2023-01-01T00:00:00Z" s2 (.ok "loc")).logs :=
  uploadDump_ignores_decode_failure "backups" "shop" "2023-01-01T00:00:00Z"
    [.fail "broken archive"] (.ok "loc") (.inl ⟨"broken archive", rfl⟩)

/-- C1 counterexample: an archive-decode failure is neither logged nor does
it skip the container.  Backing up a container whose copied archive stream
is corrupt (so decoding provably fails, first conjunct) still issues a put
of an empty payload under the normal object key and ends with the normal
"Uploaded backup file" and "Finished backup" logs; no event records the
decode failure. -/
theorem scan_decode_failure_counterexample :
    UntarReaderToMem [TarEvent.fail "corrupt archive"] = .error "corrupt archive" ∧
    BackupContainer "backups" "2023-01-01T00:00:00Z" exBadArchiveEnv exC1 =
      some [Event.log "Starting backup for container aaaaaaaaaaaa",
        Event.put ⟨"backups", "aaaaaaaaaaaa/2023-01-01T00:00:00Z.sql", []⟩,
        Event.log "Uploaded backup file loc",
        Event.log "Finished backup for container aaaaaaaaaaaa"] := by
  exact ⟨rfl, by decide⟩

/-- C1 (amended): for any list of discovered containers (with well-formed
12-character-or-longer ids) the scan completes and every container gets its
backup attempted — the scan never aborts early.  A dump-extraction failure
is logged and causes only that container to be skipped: its pipeline emits
the failure log and only log events, never an upload.  An upload failure is
logged.  (An archive-decode failure, by contrast, is neither logged nor
skips the container: an empty payload is uploaded under the normal key.)
In the concrete three-container scenario where the second container fails
dump extraction, all three are attempted, the failure is logged, nothing is
put under the second container's key, and the first and third are uploaded
under their keys. -/
theorem scan_partial_failure_isolation (bucket ts : String)
    (envOf : String → ContainerEnv) (cs : List Container)
    (hlen : ∀ c ∈ cs, 12 ≤ c.id.length) :
    (∃ evs, Scan bucket ts envOf (.ok cs) = some evs ∧
      ∀ c ∈ cs, Event.log ("Starting backup for container " ++ c.id.take 12) ∈ evs) ∧
    (∀ env c err, 12 ≤ c.id.length →
      (DumpData env.exec (getDatabaseName env.inspectEnv c)
        (getDatabaseUser env.inspectEnv c)).stream = .error err →
      ∃ evs, BackupContainer bucket ts env c = some evs ∧
        Event.log ("Failed to dump data for " ++ c.id.take 12) ∈ evs ∧
        ∀ ev ∈ evs, ∃ m, ev = Event.log m) ∧
    (∀ appName perr stream2,
      ("Failed to upload backup file for " ++ appName ++ " : " ++ perr) ∈
        (UploadDump bucket appName ts stream2 (.error perr)).logs) ∧
    (∃ evs, Scan "backups" "2023-01-01T00:00:00Z" exEnvOf (.ok [exC1, exC2, exC3]) =
        some evs ∧
      Event.log ("Starting backup for container " ++ exC1.id.take 12) ∈ evs ∧
      Event.log ("Starting backup for container " ++ exC2.id.take 12) ∈ evs ∧
      Event.log ("Starting backup for container " ++ exC3.id.take 12) ∈ evs ∧
      Event.log ("Failed to dump data for " ++ exC2.id.take 12) ∈ evs ∧
      Event.put ⟨"backups", objectKey "aaaaaaaaaaaa" "2023-01-01T00:00:00Z", [1, 2, 3]⟩
        ∈ evs ∧
      Event.put ⟨"backups", objectKey "cccccccccccc" "2023-01-01T00:00:00Z", [1, 2, 3]⟩
        ∈ evs ∧
      ∀ ev ∈ evs,
        isPutWithKey (objectKey "bbbbbbbbbbbb" "2023-01-01T00:00:00Z") ev = false) := by
  refine ⟨?_, ?_, ?_, ?_⟩
  · obtain ⟨evs, h1, h2⟩ := scanLoop_all_attempted bucket ts envOf cs hlen
    have hs : Scan bucket ts envOf (.ok cs) =
        some (Event.log "Start containers scan" :: evs ++
          [Event.log "End containers scan"]) := by
      unfold Scan
      dsimp only
      rw [h1]
      rfl
    refine ⟨_, hs, ?_⟩
    intro c hc
    exact List.mem_cons_of_mem _ (List.mem_append_left _ (h2 c hc))
  · intro env c err hc hderr
    obtain ⟨a, ha⟩ := getAppName_isSome c hc
    have hb : BackupContainer bucket ts env c =
        some (Event.log ("Starting backup for container " ++ c.id.take 12) ::
          (DumpData env.exec (getDatabaseName env.inspectEnv c)
            (getDatabaseUser env.inspectEnv c)).logs.map Event.log ++
          [Event.log ("Failed to dump data for " ++ c.id.take 12)]) := by
      unfold BackupContainer
      rw [if_pos hc, ha]
      dsimp only
      rw [hderr]
    refine ⟨_, hb, ?_, ?_⟩
    · exact List.mem_cons_of_mem _ (List.mem_append_right _ (List.mem_singleton.mpr rfl))
    · intro ev hev
      rcases List.mem_cons.mp hev with hev | hev
      · exact ⟨_, hev⟩
      rcases List.mem_append.mp hev with hev | hev
      · obtain ⟨m, _, hm⟩ := List.mem_map.mp hev
        exact ⟨m, hm.symm⟩
      · exact ⟨_, List.mem_singleton.mp hev⟩
  · intro appName perr stream2
    exact List.mem_cons_self _ _
  · refine ⟨_, rfl, ?_, ?_, ?_, ?_, ?_, ?_, ?_⟩ <;> decide

theorem scan_partial_failure_isolation_witness :
    ∃ evs, Scan "backups" "2023-01-01T00:00:00Z" exEnvOf (.ok [exC1, exC2, exC3]) =
        some evs ∧
      ∀ c ∈ [exC1, exC2, exC3],
        Event.log ("Starting backup for container " ++ c.id.take 12) ∈ evs :=
  (scan_partial_failure_isolation "backups" "2023-01-01T00:00:00Z" exEnvOf
    [exC1, exC2, exC3] (by decide)).1
